import Mathlib

/-!
Verification of the go-ycsb trace-replay benchmark client.

This file embeds, as executable Lean definitions, the parts of the
repository that the checked properties concern:

* the twemcache trace-replay workload (package workload): trace parsing
  (parseTraceFile), the shared atomic record cursor and operation dispatch
  (traceWorkload.DoTransaction), and the workload creator
  (traceWorkloadCreator.Create);
* the raft DB binding (db/raft/db.go): row-key composition for
  Update/Insert/Delete versus Read, and CleanupThread;
* the open-loop put benchmark (package putbench): key synthesis in runPut.

Modelling conventions: Go int64 values that stay nonnegative and far below
2 to the 63 (record counts, cursors, record indices) are Nat; int64 values
that can be negative (parsed sizes, configured sizes) are Int. Go byte
slices are List Nat (each entry below 256). The atomic fetch-and-add on the
cursor linearizes all concurrent DoTransaction calls, so the sequence of
claims across all workers is modelled as sequential iteration of the
per-call step function in linearization order.
-/

namespace GoYcsb

/-- Decimal digit run: the accumulated value when every character is a
digit, none otherwise. -/
def goDigits : List Char → Nat → Option Nat
  | [], acc => some acc
  | c :: t, acc =>
    if c.isDigit then goDigits t (10 * acc + (c.toNat - 48)) else none

/-- Nonempty decimal digit run. -/
def goNat (cs : List Char) : Option Nat :=
  match cs with
  | [] => none
  | _ => goDigits cs 0

/-- Integer syntax of Go strconv.Atoi: an optional sign and a nonempty
run of decimal digits; none for anything else. Range errors on huge
inputs are not modelled (trace fields are small). -/
def goParseInt (s : String) : Option Int :=
  match s.data with
  | [] => none
  | c :: t =>
    if c = '-' then (goNat t).map (fun n => -(n : Int))
    else if c = '+' then (goNat t).map (fun n => (n : Int))
    else (goNat (c :: t)).map (fun n => (n : Int))

/-- Result of the Go pattern v, _ := strconv.Atoi(s): the parse error is
discarded, so an unparsable field yields the zero value. -/
def goAtoi (s : String) : Int :=
  (goParseInt s).getD 0

/-- Result of the Go pattern v, _ := strconv.ParseFloat(s, 64) with the
error discarded. The float64 domain is abstracted to Int, and only
integer-literal timestamps parse in the model: no checked property
depends on the numeric value of a timestamp, only on failures being
ignored and yielding 0. -/
def goParseFloat (s : String) : Int :=
  (goParseInt s).getD 0

/-- strings.ToLower restricted to ASCII, which covers every operation
string the workload compares against. -/
def asciiLower (s : String) : String :=
  String.mk (s.data.map Char.toLower)

/-- traceRecord from the workload package: one parsed line of the trace.
The Go field timestamp is float64, abstracted to Int (see goParseFloat). -/
structure traceRecord where
  timestamp : Int
  key : String
  keySize : Int
  valueSize : Int
  clientID : String
  operation : String
  ttl : Int
deriving DecidableEq, Inhabited

/-- Construction of a traceRecord from the fields of one CSV line, exactly
as the body of the parse loop does it: fields 0..6 are timestamp, key,
key size, value size, client id, operation (lower-cased), ttl, each numeric
field parsed with its error discarded. -/
def mkRecord (r : List String) : traceRecord :=
  { timestamp := goParseFloat (r.getD 0 "")
  , key := r.getD 1 ""
  , keySize := goAtoi (r.getD 2 "")
  , valueSize := goAtoi (r.getD 3 "")
  , clientID := r.getD 4 ""
  , operation := asciiLower (r.getD 5 "")
  , ttl := goAtoi (r.getD 6 "") }

/-- One input line as the Go csv.Reader sees it: either a line the reader
rejects with a syntax error (bad quoting and the like), or a list of
fields. -/
inductive rawLine where
  | bad : rawLine
  | fields : List String → rawLine
deriving DecidableEq, Inhabited

/-- One csv.Reader.Read call. The reader locks the expected field count to
the count of the first record it returns (FieldsPerRecord = 0 semantics);
a later record with a different count is returned as an error, which the
parse loop in parseTraceFile skips. Result: (new locked count, some fields)
on success, (locked count, none) on a read error. -/
def csvRead (locked : Option Nat) (l : rawLine) : Option Nat × Option (List String) :=
  match l with
  | rawLine.bad => (locked, none)
  | rawLine.fields r =>
    match locked with
    | none => (some r.length, some r)
    | some n => if r.length = n then (some n, some r) else (some n, none)

/-- Loop body of parseTraceFile: before each read, stop when the optional
cap maxRecords (taken as an Int, as in Go int64) is positive and reached;
a read error skips the line; a line with fewer than 7 fields is skipped;
otherwise the record is appended. End of the list is EOF. -/
def parseTraceAux (locked : Option Nat) (lines : List rawLine) (maxRecords : Int)
    (acc : List traceRecord) : List traceRecord :=
  match lines with
  | [] => acc
  | l :: rest =>
    if 0 < maxRecords ∧ maxRecords ≤ (acc.length : Int) then acc
    else
      match csvRead locked l with
      | (locked2, none) => parseTraceAux locked2 rest maxRecords acc
      | (locked2, some r) =>
        if r.length < 7 then parseTraceAux locked2 rest maxRecords acc
        else parseTraceAux locked2 rest maxRecords (acc ++ [mkRecord r])

/-- parseTraceFile from the workload package, over an already-opened
sequence of CSV lines (file opening and zstd decompression are modelled at
the creator level, where their failure is an error return). -/
def parseTraceFile (lines : List rawLine) (maxRecords : Int) : List traceRecord :=
  parseTraceAux none lines maxRecords []

/-- Abstraction of the database a replayed operation is issued to: the only
outcome the workload inspects is whether db.Read returns an error (the
incr/decr branch short-circuits on it, and the read branch forwards it).
Update/Insert/Delete results are forwarded untouched and no checked
property depends on them, so they are taken as error-free sends. -/
structure dbModel where
  readErr : String → String → Option String

/-- One database call issued by the workload, with the byte payload of the
single field it writes (values maps always bind the one configured field
name, so the payload list is the value of that field). -/
inductive dbOp where
  | read : String → String → dbOp
  | update : String → String → List Nat → dbOp
  | insert : String → String → List Nat → dbOp
  | delete : String → String → dbOp
deriving DecidableEq, Inhabited

/-- traceWorkload from the workload package. The Go struct also carries a
numRecords field that Create sets to len(records) and nothing ever
mutates, so the model uses records.length for it; the load-phase fields
(uniqueKeys, keySizes, valueSizes, loadIdx) are omitted because no checked
property concerns the load phase and their order is Go map iteration
order. -/
structure traceWorkload where
  table : String
  fieldName : String
  loopReplay : Bool
  readMode : String
  writeValueSize : Int
  records : List traceRecord
deriving DecidableEq, Inhabited

/-- Buffer of n copies of byte 120 (letter x), the dummy payload the
workload builds with make and a fill loop. The per-thread buffer reuse in
traceState only recycles allocations; the resulting bytes are the same. -/
def xBytes (n : Nat) : List Nat :=
  List.replicate n 120

/-- Effective value size for write-like records: the Go fallback
valueSize <= 0 implies 100 bytes. -/
def effValueSize (v : Int) : Nat :=
  if v ≤ 0 then 100 else v.toNat

/-- Outcome of the cursor claim at the top of DoTransaction: either no
record is left to claim (the function returns nil), or record index i is
claimed. -/
inductive claimResult where
  | noRecord : claimResult
  | claimed : Nat → claimResult
deriving DecidableEq, Inhabited

/-- Cursor step at the top of DoTransaction, one atomic claim per call.
idx := atomic.AddInt64(recordIdx, 1) - 1 reads the pre-call cursor and
leaves cursor + 1; if idx is at or past numRecords, loop replay resets the
cursor to 1 and claims index 0, while without loop replay the call claims
nothing. The result is (post-call cursor, claim outcome). -/
def claimNext (loopReplay : Bool) (numRecords cursor : Nat) : Nat × claimResult :=
  if numRecords ≤ cursor then
    if loopReplay then (1, claimResult.claimed 0)
    else (cursor + 1, claimResult.noRecord)
  else (cursor + 1, claimResult.claimed cursor)

/-- Operation dispatch of DoTransaction once a record is claimed: the
switch on record.operation, with the read-mode switch inside the get/gets
case. Returns the issued database calls in order and the error
DoTransaction returns (none = nil). The payload 49 is the byte of the
digit 1, the placeholder incr/decr write. -/
def dispatchRecord (w : traceWorkload) (db : dbModel) (r : traceRecord) :
    List dbOp × Option String :=
  match r.operation with
  | "get" | "gets" =>
    match w.readMode with
    | "skip" => ([], none)
    | "write" => ([dbOp.update w.table r.key (xBytes w.writeValueSize.toNat)], none)
    | _ => ([dbOp.read w.table r.key], db.readErr w.table r.key)
  | "set" | "add" | "replace" | "cas" =>
    let value := xBytes (effValueSize r.valueSize)
    if r.operation = "add" then ([dbOp.insert w.table r.key value], none)
    else ([dbOp.update w.table r.key value], none)
  | "delete" => ([dbOp.delete w.table r.key], none)
  | "append" | "prepend" =>
    ([dbOp.update w.table r.key (xBytes (effValueSize r.valueSize))], none)
  | "incr" | "decr" =>
    match db.readErr w.table r.key with
    | some e => ([dbOp.read w.table r.key], some e)
    | none => ([dbOp.read w.table r.key, dbOp.update w.table r.key [49]], none)
  | _ => ([], none)

/-- DoTransaction: claim the next cursor position, then dispatch on the
claimed record. Result: (post-call cursor, (issued calls, returned
error)). The Go record access w.records[idx] is modelled with getD; every
reachable claim has idx below records.length whenever records is nonempty,
which Create guarantees. -/
def doTransaction (w : traceWorkload) (db : dbModel) (cursor : Nat) :
    Nat × (List dbOp × Option String) :=
  match claimNext w.loopReplay w.records.length cursor with
  | (c2, claimResult.noRecord) => (c2, ([], none))
  | (c2, claimResult.claimed i) => (c2, dispatchRecord w db (w.records.getD i default))

/-- Cursor value after k successive DoTransaction calls starting from the
given cursor (the claims of concurrent workers in linearization order). -/
def runCursor (loopReplay : Bool) (numRecords cursor : Nat) : Nat → Nat
  | 0 => cursor
  | k + 1 => runCursor loopReplay numRecords (claimNext loopReplay numRecords cursor).1 k

/-- Claim outcomes of k successive DoTransaction calls starting from the
given cursor, in linearization order. -/
def claimSeq (loopReplay : Bool) (numRecords cursor : Nat) : Nat → List claimResult
  | 0 => []
  | k + 1 =>
    (claimNext loopReplay numRecords cursor).2 ::
      claimSeq loopReplay numRecords (claimNext loopReplay numRecords cursor).1 k

/-- Record indices of the successful claims of a claim sequence. -/
def claimedIdxs : List claimResult → List Nat
  | [] => []
  | claimResult.noRecord :: cs => claimedIdxs cs
  | claimResult.claimed i :: cs => i :: claimedIdxs cs

/-- Database calls issued for a sequence of claim outcomes: nothing for an
exhausted claim, the dispatch of the claimed record otherwise. -/
def opsOfClaims (w : traceWorkload) (db : dbModel) : List claimResult → List dbOp
  | [] => []
  | claimResult.noRecord :: cs => opsOfClaims w db cs
  | claimResult.claimed i :: cs =>
    (dispatchRecord w db (w.records.getD i default)).1 ++ opsOfClaims w db cs

/-- Database calls issued by k successive DoTransaction calls starting
from the given cursor. -/
def runOps (w : traceWorkload) (db : dbModel) (cursor : Nat) : Nat → List dbOp
  | 0 => []
  | k + 1 =>
    (doTransaction w db cursor).2.1 ++ runOps w db (doTransaction w db cursor).1 k

/-- Count of point reads in a call sequence. -/
def countReads (ops : List dbOp) : Nat :=
  ops.countP fun o => match o with
    | dbOp.read _ _ => true
    | _ => false

/-- Configuration the creator reads, with property lookups resolved: each
field is the result of the corresponding p.GetString / p.GetInt64 /
p.GetBool call with its default (empty trace file, 0 max records, the
string read for the read mode, false loop, 1 write value size, usertable,
field0). readMode holds the retrieved string before the creator
lower-cases it. -/
structure traceProps where
  traceFile : String
  maxRecords : Int
  readMode : String
  loopReplay : Bool
  writeValueSize : Int
  table : String
  fieldName : String
deriving DecidableEq, Inhabited

/-- traceWorkloadCreator.Create. The file system is a map from path to the
CSV lines of the file, none meaning the open or the zstd decoder setup
failed (the only error returns of parseTraceFile). Error paths in source
order: empty trace.file property, parse failure, zero loaded records,
and a lower-cased read mode other than read, skip or write; otherwise the
workload is returned. The Go statistics printing between these checks has
no effect on the result. -/
def createTrace (p : traceProps) (fs : String → Option (List rawLine)) :
    Except String traceWorkload :=
  if p.traceFile = "" then
    Except.error "trace.file property is required for trace workload"
  else
    match fs p.traceFile with
    | none => Except.error "failed to parse trace file"
    | some ls =>
      let records := parseTraceFile ls p.maxRecords
      if records = [] then Except.error "no records found in trace file"
      else
        let readMode := asciiLower p.readMode
        if readMode ≠ "read" ∧ readMode ≠ "skip" ∧ readMode ≠ "write" then
          Except.error "invalid trace.readmode"
        else
          Except.ok
            { table := p.table
            , fieldName := p.fieldName
            , loopReplay := p.loopReplay
            , readMode := readMode
            , writeValueSize := p.writeValueSize
            , records := records }

/-- Truth value of a creator result being a workload rather than an
error. -/
def createOk (e : Except String traceWorkload) : Bool :=
  match e with
  | Except.ok _ => true
  | Except.error _ => false

/-- getRowKey of the raft binding: fmt.Sprintf with the pattern
percent-s colon percent-s, so table, then a colon, then the key. Both the
streaming binding and the unary binding define it identically. -/
def getRowKey (table key : String) : String :=
  table ++ ":" ++ key

/-- Request sent to the raft service: a streamed or unary Put carrying
(key, value), or a unary Get carrying a key. -/
inductive raftReq where
  | put : String → String → raftReq
  | get : String → raftReq
deriving DecidableEq

/-- Request built by raftDB.Update in both bindings: a PutRequest whose
key is the composed row key; data stands for the JSON marshalling of the
values map, which the claims never inspect. -/
def raftUpdateReq (table key data : String) : raftReq :=
  raftReq.put (getRowKey table key) data

/-- Request built by raftDB.Insert: an alias for Update in both
bindings. -/
def raftInsertReq (table key data : String) : raftReq :=
  raftUpdateReq table key data

/-- Request built by raftDB.Delete in both bindings: a PutRequest with the
composed row key and an empty JSON object as value. -/
def raftDeleteReq (table key : String) : raftReq :=
  raftReq.put (getRowKey table key) "\x7b\x7d"

/-- Request built by raftDB.Read in both bindings: a GetRequest whose key
field is the bare key, not the composed row key (the composed key rkey is
computed but used only in the not-found error message). -/
def raftReadReq (table key : String) : raftReq :=
  raftReq.get key

/-- Error message raftDB.Read returns when the response reports the key
was not found: it names the composed row key. -/
def raftReadNotFoundErr (table key : String) : String :=
  "could not find value for key [" ++ getRowKey table key ++ "]"

/-- Key field of a request. -/
def reqKey : raftReq → String
  | raftReq.put k _ => k
  | raftReq.get k => k

/-- Steps of raftDB.CleanupThread in the streaming binding. -/
inductive cleanupStep where
  | closeSend : cleanupStep
  | cancelCtx : cleanupStep
  | waitDrain : cleanupStep
  | closeConn : cleanupStep
deriving DecidableEq, Inhabited

/-- raftDB.CleanupThread is a straight-line function with a single exit
path; the statements it executes, in program order: stream.CloseSend,
cancel of the worker context, wg.Wait for the drain goroutine to observe
stream closure, conn.Close. -/
def cleanupThread : List cleanupStep :=
  [cleanupStep.closeSend, cleanupStep.cancelCtx, cleanupStep.waitDrain,
   cleanupStep.closeConn]

/-- Big-endian 8-byte encoding of a drawn id, as
binary.BigEndian.PutUint64 writes uint64(id) (the id is nonnegative and
below 2 to the 63, so the uint64 conversion is the identity). -/
def beBytes8 (id : Nat) : List Nat :=
  [id / 2 ^ 56 % 256, id / 2 ^ 48 % 256, id / 2 ^ 40 % 256, id / 2 ^ 32 % 256,
   id / 2 ^ 24 % 256, id / 2 ^ 16 % 256, id / 2 ^ 8 % 256, id % 256]

/-- Big-endian decoding of a byte list. -/
def beDecode (bs : List Nat) : Nat :=
  bs.foldl (fun acc b => acc * 256 + b) 0

/-- Key built by one iteration of the request loop in runPut (package
putbench), with the uniform draw id = rand.Int63n(keySpace) passed in.
keySpace at most 1: the constant all-zero buffer of keySize bytes.
Otherwise, keySize at least 8: the reused keyBuf keeps its leading
keySize - 8 bytes zero (allocated zeroed, never written) and the copy
places the 8 id bytes at the tail; keySize below 8: the copy takes the
low-order keySize bytes of the encoding. The worker receives a fresh copy
of the buffer, byte-for-byte this list. -/
def runPutKey (keySpace keySize id : Nat) : List Nat :=
  if keySpace ≤ 1 then List.replicate keySize 0
  else if 8 ≤ keySize then List.replicate (keySize - 8) 0 ++ beBytes8 id
  else (beBytes8 id).drop (8 - keySize)

/-- Without loop replay every call advances the cursor by exactly one,
whether or not a record was claimed. -/
lemma claimNext_false_fst (n c : Nat) : (claimNext false n c).1 = c + 1 := by
  unfold claimNext
  split <;> simp

/-- Without loop replay the cursor after k calls is the start plus k. -/
lemma runCursor_false (n : Nat) : ∀ (k c : Nat), runCursor false n c k = c + k := by
  intro k
  induction k with
  | zero => intro c; simp [runCursor]
  | succ m ih =>
    intro c
    rw [runCursor, claimNext_false_fst, ih]
    omega

/-- While the cursor stays within the record count, each call claims the
record at the pre-call cursor, loop replay or not. -/
lemma claimSeq_of_le (loopReplay : Bool) (n : Nat) :
    ∀ (k c : Nat), c + k ≤ n →
      claimSeq loopReplay n c k = (List.range' c k).map claimResult.claimed := by
  intro k
  induction k with
  | zero => intro c _; simp [claimSeq]
  | succ m ih =>
    intro c h
    have hc : ¬ n ≤ c := by omega
    rw [claimSeq, List.range']
    simp only [claimNext, if_neg hc, List.map_cons]
    exact congrArg _ (ih (c + 1) (by omega))

/-- While the cursor stays within the record count, it advances by one per
call, loop replay or not. -/
lemma runCursor_of_le (loopReplay : Bool) (n : Nat) :
    ∀ (k c : Nat), c + k ≤ n → runCursor loopReplay n c k = c + k := by
  intro k
  induction k with
  | zero => intro c _; simp [runCursor]
  | succ m ih =>
    intro c h
    have hc : ¬ n ≤ c := by omega
    rw [runCursor]
    simp only [claimNext, if_neg hc]
    rw [ih (c + 1) (by omega)]
    omega

/-- Splitting a run of j + k calls at the j-th call. -/
lemma claimSeq_append (loopReplay : Bool) (n : Nat) :
    ∀ (j k c : Nat),
      claimSeq loopReplay n c (j + k)
        = claimSeq loopReplay n c j
          ++ claimSeq loopReplay n (runCursor loopReplay n c j) k := by
  intro j
  induction j with
  | zero => intro k c; simp [claimSeq, runCursor, Nat.zero_add]
  | succ m ih =>
    intro k c
    rw [Nat.succ_add, claimSeq, claimSeq, runCursor, ih]
    simp

/-- Claimed indices of a run that only claims. -/
lemma claimedIdxs_map_claimed (l : List Nat) :
    claimedIdxs (l.map claimResult.claimed) = l := by
  induction l with
  | nil => rfl
  | cons a t ih => simp [claimedIdxs, ih]

/-- Every index a call claims is a valid index into the loaded records,
for any cursor value, as long as at least one record is loaded. -/
lemma claimSeq_mem_lt (loopReplay : Bool) (n : Nat) (hn : 1 ≤ n) :
    ∀ (k c i : Nat), claimResult.claimed i ∈ claimSeq loopReplay n c k → i < n := by
  intro k
  induction k with
  | zero => intro c i h; simp [claimSeq] at h
  | succ m ih =>
    intro c i h
    rw [claimSeq] at h
    rcases List.mem_cons.mp h with h1 | h1
    · unfold claimNext at h1
      by_cases hc : n ≤ c
      · rw [if_pos hc] at h1
        cases hL : loopReplay <;> rw [hL] at h1 <;> simp at h1
        omega
      · rw [if_neg hc] at h1
        simp at h1
        omega
    · exact ih _ _ h1

/-- Issued calls of a run, through the claim sequence. -/
lemma runOps_eq_opsOfClaims (w : traceWorkload) (db : dbModel) :
    ∀ (k c : Nat),
      runOps w db c k
        = opsOfClaims w db (claimSeq w.loopReplay w.records.length c k) := by
  intro k
  induction k with
  | zero => intro c; simp [runOps, claimSeq, opsOfClaims]
  | succ m ih =>
    intro c
    rw [runOps, claimSeq, ih]
    unfold doTransaction
    rcases h : claimNext w.loopReplay w.records.length c with ⟨c2, r⟩
    cases r <;> simp [opsOfClaims, h]

/-- C1 counterexample: with one loaded record and loop replay disabled,
the linearized cursor after two DoTransaction calls is 2, strictly above
numRecords = 1; the second (exhausted) call still advanced the atomic
counter past the record count, so the invariant cursor at most numRecords
fails. -/
theorem trace_cursor_exceeds_cex :
    runCursor false 1 0 2 = 2 ∧ ¬ runCursor false 1 0 2 ≤ 1 := by
  decide

/-- C1 (amended): the shared cursor is not bounded by numRecords - with
loop replay disabled it equals the number of calls made, so it passes
numRecords as soon as more calls than records occur. What does hold at
every point: every record index actually claimed by a call (hence every
access into the record array) is strictly below numRecords, for any
starting cursor and any number of calls, once at least one record is
loaded. -/
theorem trace_cursor_bound_amended (n : Nat) (hn : 1 ≤ n) :
    (∀ k, runCursor false n 0 k = k) ∧
    (∀ (loopReplay : Bool) (c k i : Nat),
      claimResult.claimed i ∈ claimSeq loopReplay n c k → i < n) := by
  constructor
  · intro k
    rw [runCursor_false]
    omega
  · intro loopReplay c k i h
    exact claimSeq_mem_lt loopReplay n hn k c i h

/-- C1 witness: the amended statement instantiated at one loaded
record. -/
theorem trace_cursor_bound_amended_wit :
    (∀ k, runCursor false 1 0 k = k) ∧
    (∀ (loopReplay : Bool) (c k i : Nat),
      claimResult.claimed i ∈ claimSeq loopReplay 1 c k → i < 1) :=
  trace_cursor_bound_amended 1 (by decide)

/-- C4: with loop replay disabled, the first numRecords DoTransaction
calls (all workers, in linearization order of the atomic fetch-and-add)
claim exactly the indices 0, 1, ..., numRecords - 1 in order: the claimed
indices are a permutation of the range with no duplicates, and the number
of successful claims equals numRecords. -/
theorem trace_claims_permutation (n : Nat) :
    claimSeq false n 0 n = (List.range n).map claimResult.claimed ∧
    claimedIdxs (claimSeq false n 0 n) = List.range n ∧
    (claimedIdxs (claimSeq false n 0 n)).Perm (List.range n) ∧
    (claimedIdxs (claimSeq false n 0 n)).Nodup ∧
    (claimedIdxs (claimSeq false n 0 n)).length = n := by
  have h : claimSeq false n 0 n = (List.range' 0 n).map claimResult.claimed :=
    claimSeq_of_le false n n 0 (by omega)
  rw [← List.range_eq_range'] at h
  refine ⟨h, ?_, ?_, ?_, ?_⟩ <;> rw [h, claimedIdxs_map_claimed]
  · exact List.nodup_range n
  · exact List.length_range n

/-- C9: with loop replay disabled, a DoTransaction call whose claimed
cursor index is at or past numRecords issues no database call and returns
nil: the result is the advanced cursor, no operations, no error. -/
theorem trace_exhausted_noop (w : traceWorkload) (db : dbModel) (c : Nat)
    (h1 : w.loopReplay = false) (h2 : w.records.length ≤ c) :
    doTransaction w db c = (c + 1, ([], none)) := by
  unfold doTransaction
  simp [claimNext, h1, if_pos h2]

/-- C9 witness: an empty trace workload at cursor 5 returns cleanly. -/
theorem trace_exhausted_noop_wit :
    doTransaction
      { table := "usertable", fieldName := "field0", loopReplay := false,
        readMode := "read", writeValueSize := 1, records := [] }
      { readErr := fun _ _ => none } 5
      = (5 + 1, ([], none)) :=
  trace_exhausted_noop _ _ 5 rfl (by simp)

/-- With loop replay, a full pass starting at the exhausted cursor n wraps
to the start and claims 0, 1, ..., n - 1 again. -/
lemma claimSeq_loop_wrap (n : Nat) :
    claimSeq true n n n = (List.range n).map claimResult.claimed := by
  cases n with
  | zero => simp [claimSeq]
  | succ m =>
    have h1 : claimNext true (m + 1) (m + 1) = (1, claimResult.claimed 0) := by
      simp [claimNext]
    rw [claimSeq, h1]
    rw [claimSeq_of_le true (m + 1) m 1 (by omega)]
    rw [List.range_eq_range', List.range']
    simp

/-- Database model that reports no read errors, used for concrete replay
runs. -/
def dbNoErr : dbModel :=
  { readErr := fun _ _ => none }

/-- C5: with loop replay enabled, running the trace for two full passes
(2 * numRecords linearized DoTransaction calls from cursor 0) claims the
index sequence 0..n-1 twice: the second pass equals the first, and the
database calls issued in the second pass are exactly those of the first
pass, in the same order. -/
theorem trace_loop_replay_two_passes (w : traceWorkload) (db : dbModel)
    (hL : w.loopReplay = true) :
    claimSeq true w.records.length 0 (2 * w.records.length)
      = ((List.range w.records.length).map claimResult.claimed)
        ++ ((List.range w.records.length).map claimResult.claimed) ∧
    (claimSeq true w.records.length 0 (2 * w.records.length)).take w.records.length
      = (claimSeq true w.records.length 0 (2 * w.records.length)).drop
          w.records.length ∧
    runOps w db 0 w.records.length
      = runOps w db (runCursor w.loopReplay w.records.length 0 w.records.length)
          w.records.length := by
  set n := w.records.length with hn
  have hpass1 : claimSeq true n 0 n = (List.range n).map claimResult.claimed := by
    rw [claimSeq_of_le true n n 0 (by omega), List.range_eq_range']
  have hcur : runCursor true n 0 n = n := by
    rw [runCursor_of_le true n n 0 (by omega)]
    omega
  have hsplit : claimSeq true n 0 (2 * n)
      = ((List.range n).map claimResult.claimed)
        ++ ((List.range n).map claimResult.claimed) := by
    have h2 : 2 * n = n + n := by omega
    rw [h2, claimSeq_append, hcur, hpass1, claimSeq_loop_wrap]
  refine ⟨hsplit, ?_, ?_⟩
  · rw [hsplit]
    rw [List.take_left' (by simp), List.drop_left' (by simp)]
  · rw [runOps_eq_opsOfClaims, runOps_eq_opsOfClaims, hL, ← hn, hcur, hpass1,
      claimSeq_loop_wrap]

/-- Workload used in concrete replay runs: the two-record trace of the
read-mode scenario (a set of key a, then a get of key a), read mode
write, write value size 1, with loop replay enabled so the same workload
also drives the loop-replay witness. -/
def replayW : traceWorkload :=
  { table := "usertable"
  , fieldName := "field0"
  , loopReplay := true
  , readMode := "write"
  , writeValueSize := 1
  , records := [mkRecord ["0", "a", "1", "1", "c1", "set", "0"],
                mkRecord ["1", "a", "1", "1", "c1", "get", "0"]] }

/-- C5 witness: the two-pass statement instantiated at the concrete
two-record workload. -/
theorem trace_loop_replay_two_passes_wit :
    claimSeq true replayW.records.length 0 (2 * replayW.records.length)
      = ((List.range replayW.records.length).map claimResult.claimed)
        ++ ((List.range replayW.records.length).map claimResult.claimed) ∧
    (claimSeq true replayW.records.length 0
        (2 * replayW.records.length)).take replayW.records.length
      = (claimSeq true replayW.records.length 0
          (2 * replayW.records.length)).drop replayW.records.length ∧
    runOps replayW dbNoErr 0 replayW.records.length
      = runOps replayW dbNoErr
          (runCursor replayW.loopReplay replayW.records.length 0
            replayW.records.length)
          replayW.records.length :=
  trace_loop_replay_two_passes replayW dbNoErr rfl

/-- C2 counterexample: a 7-field line whose numeric fields (timestamp,
key size, value size, ttl) are all unparsable is not skipped - the parse
errors are discarded and the line contributes a record with 0 in every
numeric field, contradicting the claim that a line with unparsable
numeric fields contributes no record. -/
theorem trace_unparsable_included_cex :
    parseTraceFile [rawLine.fields ["abc", "a", "1x", "2y", "c1", "get", "zz"]] 0
      = [{ timestamp := 0, key := "a", keySize := 0, valueSize := 0,
           clientID := "c1", operation := "get", ttl := 0 }] := by
  decide

/-- C2 (amended): lines the CSV reader rejects (syntax errors, or a field
count differing from the count locked in by the first line) and lines
with fewer than 7 fields are skipped and contribute no record, and a
well-formed 7-field line immediately after such a skipped line is still
parsed and included; but a line with 7 fields is included even when its
numeric fields are unparsable (each failed numeric parse yields 0), so
only field-count and CSV-level malformations are skipped. Stated for a
file whose first line has 7 fields, which locks the reader to 7. -/
theorem trace_malformed_skip (first good : List String) (mal : rawLine)
    (h1 : first.length = 7) (hg : good.length = 7)
    (hmal : mal = rawLine.bad ∨ ∃ r, mal = rawLine.fields r ∧ r.length ≠ 7) :
    parseTraceFile [rawLine.fields first, mal, rawLine.fields good] 0
      = [mkRecord first, mkRecord good] := by
  rcases hmal with hb | ⟨r, hb, hr⟩ <;> subst hb
  · simp [parseTraceFile, parseTraceAux, csvRead, h1, hg]
  · simp [parseTraceFile, parseTraceAux, csvRead, h1, hg, hr]

/-- C2 witness: the spec scenario - a malformed 5-field line between two
well-formed lines is skipped and the following line is still included. -/
theorem trace_malformed_skip_wit :
    parseTraceFile
      [rawLine.fields ["1", "k1", "1", "1", "c1", "set", "0"],
       rawLine.fields ["1", "k2", "1", "1", "c1"],
       rawLine.fields ["2", "k3", "1", "1", "c1", "get", "0"]] 0
      = [mkRecord ["1", "k1", "1", "1", "c1", "set", "0"],
         mkRecord ["2", "k3", "1", "1", "c1", "get", "0"]] :=
  trace_malformed_skip _ _ _ (by decide) (by decide)
    (Or.inr ⟨["1", "k2", "1", "1", "c1"], rfl, by decide⟩)

/-- C8: the read-mode policy decides what a replayed get/gets record
issues: skip issues nothing, write issues exactly one synthetic update of
writeValueSize bytes (and no read), read issues exactly one point read
whose error is forwarded; and for the two-record scenario trace (a set of
key a then a get of key a) with read mode write, the replay issues one
update for key a, then one more update for key a, and zero reads. -/
theorem trace_readmode_dispatch (w : traceWorkload) (db : dbModel)
    (r : traceRecord) (hop : r.operation = "get" ∨ r.operation = "gets") :
    (w.readMode = "skip" → dispatchRecord w db r = ([], none)) ∧
    (w.readMode = "write" →
      dispatchRecord w db r
        = ([dbOp.update w.table r.key (xBytes w.writeValueSize.toNat)], none)) ∧
    (w.readMode = "read" →
      dispatchRecord w db r
        = ([dbOp.read w.table r.key], db.readErr w.table r.key)) ∧
    runOps replayW dbNoErr 0 2
      = [dbOp.update "usertable" "a" (xBytes 1),
         dbOp.update "usertable" "a" (xBytes 1)] ∧
    countReads (runOps replayW dbNoErr 0 2) = 0 := by
  refine ⟨?_, ?_, ?_, by decide, by decide⟩ <;>
    intro hm <;> rcases hop with hop | hop <;>
    unfold dispatchRecord <;> rw [hop, hm] <;> rfl

/-- C8 witness: the dispatch clauses instantiated at the scenario
workload (read mode write) and its get record. -/
theorem trace_readmode_dispatch_wit :
    (replayW.readMode = "skip" →
      dispatchRecord replayW dbNoErr (mkRecord ["1", "a", "1", "1", "c1", "get", "0"])
        = ([], none)) ∧
    (replayW.readMode = "write" →
      dispatchRecord replayW dbNoErr (mkRecord ["1", "a", "1", "1", "c1", "get", "0"])
        = ([dbOp.update replayW.table
              (mkRecord ["1", "a", "1", "1", "c1", "get", "0"]).key
              (xBytes replayW.writeValueSize.toNat)], none)) ∧
    (replayW.readMode = "read" →
      dispatchRecord replayW dbNoErr (mkRecord ["1", "a", "1", "1", "c1", "get", "0"])
        = ([dbOp.read replayW.table
              (mkRecord ["1", "a", "1", "1", "c1", "get", "0"]).key],
           dbNoErr.readErr replayW.table
             (mkRecord ["1", "a", "1", "1", "c1", "get", "0"]).key)) ∧
    runOps replayW dbNoErr 0 2
      = [dbOp.update "usertable" "a" (xBytes 1),
         dbOp.update "usertable" "a" (xBytes 1)] ∧
    countReads (runOps replayW dbNoErr 0 2) = 0 :=
  trace_readmode_dispatch replayW dbNoErr
    (mkRecord ["1", "a", "1", "1", "c1", "get", "0"]) (Or.inl (by decide))

/-- C3: for every table, key and marshalled value, Update, Insert and
Delete of the raft binding address the composed row key table:key, while
the Get request of Read carries the bare key, even though the not-found
error message of Read names the composed key; consequently the key Read
queries is never the key the write operations for the same (table, key)
addressed. This holds for the streaming and the unary binding alike, whose
request construction is identical in these respects. -/
theorem raft_read_key_mismatch (table key data : String) :
    reqKey (raftUpdateReq table key data) = getRowKey table key ∧
    reqKey (raftInsertReq table key data) = getRowKey table key ∧
    reqKey (raftDeleteReq table key) = getRowKey table key ∧
    reqKey (raftReadReq table key) = key ∧
    raftReadNotFoundErr table key
      = "could not find value for key [" ++ getRowKey table key ++ "]" ∧
    reqKey (raftReadReq table key) ≠ reqKey (raftUpdateReq table key data) := by
  refine ⟨rfl, rfl, rfl, rfl, rfl, ?_⟩
  show key ≠ getRowKey table key
  intro hcontra
  have hlen := congrArg String.length hcontra
  rw [getRowKey, String.length_append, String.length_append] at hlen
  have hcolon : (":" : String).length = 1 := rfl
  omega

/-- C7: CleanupThread performs exactly the four shutdown steps, each once,
in the order half-close the send side, cancel the worker context, wait
for the drain loop to observe stream closure, close the connection. The
function is straight-line Go with a single exit path, so this is the
step sequence of every exit. -/
theorem cleanup_thread_order :
    cleanupThread.length = 4 ∧
    cleanupThread.count cleanupStep.closeSend = 1 ∧
    cleanupThread.count cleanupStep.cancelCtx = 1 ∧
    cleanupThread.count cleanupStep.waitDrain = 1 ∧
    cleanupThread.count cleanupStep.closeConn = 1 ∧
    cleanupThread.indexOf cleanupStep.closeSend
      < cleanupThread.indexOf cleanupStep.cancelCtx ∧
    cleanupThread.indexOf cleanupStep.cancelCtx
      < cleanupThread.indexOf cleanupStep.waitDrain ∧
    cleanupThread.indexOf cleanupStep.waitDrain
      < cleanupThread.indexOf cleanupStep.closeConn := by
  decide

/-- Big-endian decoding inverts the 8-byte encoding up to 2 to the 64. -/
lemma beDecode_beBytes8 (id : Nat) : beDecode (beBytes8 id) = id % 2 ^ 64 := by
  simp only [beDecode, beBytes8, List.foldl]
  norm_num
  omega

/-- C6: every key the put benchmark generates has exactly keySize bytes.
Content: with keySpace at most 1 the key is the all-zero buffer; with a
larger key space and keySize at least 8 the bytes before the last 8 are
zero and the last 8 bytes decode (big-endian) to the drawn id, which lies
in the key space; with keySize below 8 the key decodes to the low-order
keySize bytes of the id (its value modulo 2 to the 8 keySize). The draw
id is uniform on the key space, modelled by the hypothesis id < keySpace;
keySpace fits int64, so the uint64 view of id is the identity. -/
theorem putbench_key_shape (keySpace keySize id : Nat)
    (h1 : id < keySpace) (h2 : keySpace ≤ 2 ^ 63) :
    (runPutKey keySpace keySize id).length = keySize ∧
    (keySpace ≤ 1 → runPutKey keySpace keySize id = List.replicate keySize 0) ∧
    (1 < keySpace → 8 ≤ keySize →
      (runPutKey keySpace keySize id).take (keySize - 8)
          = List.replicate (keySize - 8) 0 ∧
      beDecode ((runPutKey keySpace keySize id).drop (keySize - 8)) = id ∧
      beDecode ((runPutKey keySpace keySize id).drop (keySize - 8)) < keySpace) ∧
    (1 < keySpace → keySize < 8 →
      beDecode (runPutKey keySpace keySize id) = id % 2 ^ (8 * keySize)) := by
  have hid : id % 2 ^ 64 = id := by
    have : (2 : Nat) ^ 63 < 2 ^ 64 := by norm_num
    exact Nat.mod_eq_of_lt (by omega)
  have hlen8 : (beBytes8 id).length = 8 := by simp [beBytes8]
  refine ⟨?_, ?_, ?_, ?_⟩
  · unfold runPutKey
    by_cases hks : keySpace ≤ 1
    · simp [hks]
    · by_cases h8 : 8 ≤ keySize
      · rw [if_neg hks, if_pos h8]
        simp [hlen8]
        omega
      · rw [if_neg hks, if_neg h8]
        simp [hlen8]
        omega
  · intro hks
    rw [runPutKey, if_pos hks]
  · intro hks h8
    have hks1 : ¬ keySpace ≤ 1 := by omega
    rw [runPutKey, if_neg hks1, if_pos h8]
    have hrep : (List.replicate (keySize - 8) 0).length = keySize - 8 :=
      List.length_replicate _ _
    constructor
    · exact List.take_left' hrep
    · rw [List.drop_left' hrep, beDecode_beBytes8, hid]
      exact ⟨rfl, h1⟩
  · intro hks h8
    have hks1 : ¬ keySpace ≤ 1 := by omega
    have h88 : ¬ 8 ≤ keySize := by omega
    rw [runPutKey, if_neg hks1, if_neg h88]
    interval_cases keySize <;>
      simp only [beDecode, beBytes8, List.drop, List.foldl] <;> norm_num <;> omega

/-- C6 witness: the key shape statement instantiated at key space 300,
key size 10 and the draw 258. -/
theorem putbench_key_shape_wit :
    (runPutKey 300 10 258).length = 10 ∧
    (300 ≤ 1 → runPutKey 300 10 258 = List.replicate 10 0) ∧
    (1 < 300 → 8 ≤ 10 →
      (runPutKey 300 10 258).take (10 - 8) = List.replicate (10 - 8) 0 ∧
      beDecode ((runPutKey 300 10 258).drop (10 - 8)) = 258 ∧
      beDecode ((runPutKey 300 10 258).drop (10 - 8)) < 300) ∧
    (1 < 300 → 10 < 8 →
      beDecode (runPutKey 300 10 258) = 258 % 2 ^ (8 * 10)) :=
  putbench_key_shape 300 10 258 (by norm_num) (by norm_num)

/-- C10 counterexample: a read-mode property READ is none of the three
literal strings, yet Create succeeds, because the creator lower-cases the
property before validating it; so Create does not return an error exactly
on the conditions the claim lists. -/
theorem create_trace_readmode_case_cex :
    createOk
      (createTrace
        { traceFile := "trace.csv", maxRecords := 0, readMode := "READ",
          loopReplay := false, writeValueSize := 1, table := "usertable",
          fieldName := "field0" }
        (fun f =>
          if f = "trace.csv" then
            some [rawLine.fields ["0", "a", "1", "1", "c1", "get", "0"]]
          else none)) = true ∧
    ("READ" : String) ≠ "read" ∧ ("READ" : String) ≠ "skip" ∧
    ("READ" : String) ≠ "write" := by
  decide

/-- C10 (amended): Create returns an error exactly when the trace file
property is empty, the file cannot be opened or decoded, zero records are
loaded, or the lower-cased read-mode property is none of read, skip and
write; otherwise it returns a workload and no error. -/
theorem create_trace_ok_iff (p : traceProps) (fs : String → Option (List rawLine)) :
    (∃ w, createTrace p fs = Except.ok w) ↔
      (p.traceFile ≠ "" ∧
        ∃ ls, fs p.traceFile = some ls ∧
          parseTraceFile ls p.maxRecords ≠ [] ∧
          (asciiLower p.readMode = "read" ∨ asciiLower p.readMode = "skip" ∨
           asciiLower p.readMode = "write")) := by
  by_cases h1 : p.traceFile = ""
  · simp [createTrace, h1]
  · cases hfs : fs p.traceFile with
    | none => simp [createTrace, h1, hfs]
    | some ls =>
      by_cases h2 : parseTraceFile ls p.maxRecords = []
      · simp [createTrace, h1, hfs, h2]
      · by_cases h3 : asciiLower p.readMode ≠ "read" ∧
            asciiLower p.readMode ≠ "skip" ∧ asciiLower p.readMode ≠ "write"
        · simp only [createTrace, if_neg h1, hfs, if_pos h3, if_neg h2]
          constructor
          · rintro ⟨w, hw⟩
            cases hw
          · rintro ⟨-, ls2, hls2, -, hmode⟩
            cases hls2
            exact absurd hmode (by tauto)
        · simp only [createTrace, if_neg h1, hfs, if_neg h3, if_neg h2]
          constructor
          · intro _hok
            refine ⟨h1, ls, rfl, h2, ?_⟩
            tauto
          · intro _hrhs
            exact ⟨_, rfl⟩

end GoYcsb
